import Mathlib

/-!
Verification of the scrollback byte-interception core.

This file is a shallow embedding, in Lean, of the C core of the scrollback
proxy: the UTF-8 codec (`utf8toucs4`, `ucs4toutf8`), the cursor-position
protocol (`readposition`, `knowposition`), the scrollback store
(`erase`, `newrow`, the buffer-update step of `shelltoterminal`), the
outbound interpreter (`shelltoterminal`, shell → terminal direction) and the
inbound interpreter (`terminaltoshell`, terminal → shell direction, in
particular its scroll-up / scroll-down branches).

Modelling conventions:
 * C `int` values are Lean `Int`; bytes (C `unsigned char`) and `u_int32_t`
   cell values are Lean `Nat`.  C `%` and `/` on `int` (truncated toward
   zero) are `Int.tmod` and `Int.tdiv`.
 * The ring buffer is a `List Nat`; `List.set` models an array store.
 * Output bytes written to the real terminal (stdout) are collected in a
   `List Out`; bulk rendering done by `showscrollback` and `savebuffer`
   is not byte-modelled and appears as the abstract events `Out.redraw`
   and `Out.save`; likewise the breakout handoff appears as
   `Out.breakout`.  Bytes written to the pty master (the shell) are a
   plain `List Nat`.
 * The nested drain performed by `exchange` inside `knowposition` is I/O;
   it is abstracted as a function parameter `drain : Nat → Term → Term`
   giving, for each timeout in microseconds, the effect of one drain
   attempt on the session state.
 * `sscanf` with the two formats used by the C code (`"%c[%d;%d%c"` and
   `"\x1b[0;%d%c"`) is modelled byte-exactly by `sscanf2args` and
   `sscanfBreakout` (whitespace skipping and optional sign for `%d`).
-/

namespace Scrollback

/-! ## Byte and status constants (from the C `#define`s) -/

def ESCAPE : Nat := 0x1B
def BS : Nat := 0x08
def NL : Nat := 0x0A
def FF : Nat := 0x0C
def CR : Nat := 0x0D
def DEL : Nat := 0x7F

def SEQUENCELEN : Int := 40

def POSITION_UNKNOWN : Int := 0
def POSITION_KNOWN : Int := 1
def POSITION_UNCERTAIN : Int := 2

/-- terminator byte of a position reply: the character R -/
def GETPOSITIONTERMINATOR : Nat := 0x52
/-- terminator byte of an absolute cursor move: the character H -/
def MOVECURSORTERMINATOR : Nat := 0x48
/-- terminator byte of a breakout handoff request: the character v -/
def BREAKOUTTERMINATOR : Nat := 0x76

/-- the bytes of the C string `"\x1b[6n"` (query cursor position) -/
def ASKPOSITION : List Nat := [0x1B, 0x5B, 0x36, 0x6E]
/-- the bytes of the C string `"\x1b[2J"` (erase whole display) -/
def ERASEDISPLAY : List Nat := [0x1B, 0x5B, 0x32, 0x4A]
/-- the bytes of the C string `"\x1b[J"` (erase from cursor to end of display) -/
def ERASECURSORDISPLAY : List Nat := [0x1B, 0x5B, 0x4A]
/-- the bytes of the C string `"\x1b[[B"` (F2 key, save history) -/
def KEYF2 : List Nat := [0x1B, 0x5B, 0x5B, 0x42]
/-- the bytes of the C string `"\x1b[[C"` (F3 key, save history and page) -/
def KEYF3 : List Nat := [0x1B, 0x5B, 0x5B, 0x43]

/-! ## Session configuration

The immutable values fixed at startup: screen geometry `winsize`, the
scrollback capacity `buffersize`, the per-key scroll amount `lines`, the
`singlechar` storage-mode flag, and the two resolved scroll-key byte
strings. -/

structure Cfg where
  ws_row : Int
  ws_col : Int
  buffersize : Int
  lines : Int
  singlechar : Bool
  scrollup : List Nat
  scrolldown : List Nat
deriving DecidableEq

/-! ## Session state

All the mutable globals of the C program that the core touches:
cursor (`row`, `col`, `positionstatus`), scrollback indices (`origin`,
`show`, the latter spelled `show_` because `show` is a Lean keyword),
the ring `buffer`, the outbound escape accumulator (`escape`,
`sequence`), the incremental UTF-8 decoder (`utf8pos`, `utf8len`,
`utf8buf`) and the inbound escape accumulator (`special`,
`specialsequence`).  The C arrays `sequence`, `utf8` and
`specialsequence` are represented by the list of bytes stored so far. -/

structure Term where
  row : Int
  col : Int
  origin : Int
  show_ : Int
  positionstatus : Int
  escape : Int
  sequence : List Nat
  utf8pos : Int
  utf8len : Int
  utf8buf : List Nat
  special : Int
  specialsequence : List Nat
  buffer : List Nat
deriving DecidableEq

/-- Abstract items written to the real terminal (stdout). -/
inductive Out where
  /-- a single byte forwarded or emitted -/
  | byte (b : Nat)
  /-- the full redraw performed by `showscrollback` -/
  | redraw
  /-- the `"\x1b[s"` save-cursor sequence -/
  | savecursor
  /-- a `savebuffer` invocation (`pipe = true` when piped to the pager) -/
  | save (pipe : Bool)
  /-- the breakout handoff (`vtrun` and signalling of `pid`) -/
  | breakout (pid : Int)
deriving DecidableEq

/-- the fresh session state built by `parent`: blank buffer,
`origin = show = 0`, cursor position unknown, both accumulators inactive. -/
def initTerm (cfg : Cfg) : Term :=
  { row := 0, col := 0, origin := 0, show_ := 0,
    positionstatus := POSITION_UNKNOWN,
    escape := -1, sequence := [],
    utf8pos := 0, utf8len := 0, utf8buf := [],
    special := -1, specialsequence := [],
    buffer := List.replicate cfg.buffersize.toNat 0x20 }

/-! ## Codec (`utf8toucs4` / `ucs4toutf8`) -/

/-- C `utf8toucs4`: decode the leading UTF-8 sequence of a NUL-terminated
byte array; out-of-sequence bytes yield `(u_int32_t)(-1) = 0xFFFFFFFF`.
Reading past the list gives 0, matching the NUL terminator the C callers
always place after the bytes actually filled in. -/
def utf8toucs4 (utf8 : List Nat) : Nat :=
  let b0 := utf8.getD 0 0
  let b1 := utf8.getD 1 0
  let b2 := utf8.getD 2 0
  let b3 := utf8.getD 3 0
  if b0 &&& 0x80 = 0 then
    b0
  else if b0 &&& 0xE0 = 0xC0 ∧ b1 &&& 0xC0 = 0x80 then
    ((b0 &&& 0x1F) <<< 6) ||| (b1 &&& 0x3F)
  else if b0 &&& 0xF0 = 0xE0 ∧ b1 &&& 0xC0 = 0x80 ∧ b2 &&& 0xC0 = 0x80 then
    ((b0 &&& 0x0F) <<< 12) ||| ((b1 &&& 0x3F) <<< 6) ||| (b2 &&& 0x3F)
  else if b0 &&& 0xF8 = 0xF0 ∧ b1 &&& 0xC0 = 0x80 ∧ b2 &&& 0xC0 = 0x80 ∧
          b3 &&& 0xC0 = 0x80 then
    ((b0 &&& 0x07) <<< 18) ||| ((b1 &&& 0x3F) <<< 12) |||
      ((b2 &&& 0x3F) <<< 6) ||| (b3 &&& 0x3F)
  else
    0xFFFFFFFF

/-- C `ucs4toutf8`: the bytes the encoder stores in `buf` before the NUL
terminator. -/
def ucs4toutf8 (ucs4 : Nat) : List Nat :=
  if ucs4 < 0x80 then
    [ucs4]
  else if ucs4 < 0x800 then
    [0xC0 ||| ((ucs4 >>> 6) &&& 0x1F),
     0x80 ||| (ucs4 &&& 0x3F)]
  else if ucs4 < 0x10000 then
    [0xE0 ||| ((ucs4 >>> 12) &&& 0x0F),
     0x80 ||| ((ucs4 >>> 6) &&& 0x3F),
     0x80 ||| (ucs4 &&& 0x3F)]
  else
    [0xF0 ||| ((ucs4 >>> 18) &&& 0x07),
     0x80 ||| ((ucs4 >>> 12) &&& 0x3F),
     0x80 ||| ((ucs4 >>> 6) &&& 0x3F),
     0x80 ||| (ucs4 &&& 0x3F)]

/-! ## `sscanf` model

The C code parses escape sequences with `sscanf(s, "%c[%d;%d%c", ...)`
and `sscanf(s, "\x1b[0;%d%c", ...)`.  `%c` consumes exactly one byte,
a literal matches exactly that byte, and `%d` skips leading whitespace,
accepts an optional sign and then at least one decimal digit. -/

/-- C `isspace` on the bytes that can occur here. -/
def cIsspace (c : Nat) : Bool := c = 0x20 ∨ (0x09 ≤ c ∧ c ≤ 0x0D)

/-- leading-whitespace skipping done by `%d`. -/
def skipws : List Nat → List Nat
  | [] => []
  | c :: r => if cIsspace c then skipws r else c :: r

/-- consume a maximal run of decimal digits, accumulating their value. -/
def readDigits (acc : Int) : List Nat → Int × List Nat
  | [] => (acc, [])
  | c :: r =>
    if 0x30 ≤ c ∧ c ≤ 0x39 then readDigits (acc * 10 + ((c : Int) - 0x30)) (r)
    else (acc, c :: r)

/-- the `%d` conversion: optional sign, then at least one digit. -/
def readInt (l : List Nat) : Option (Int × List Nat) :=
  match l with
  | [] => none
  | c :: r =>
    if c = 0x2D then
      match r with
      | d :: _ =>
        if 0x30 ≤ d ∧ d ≤ 0x39 then
          let p := readDigits 0 r
          some (-p.1, p.2)
        else none
      | [] => none
    else if c = 0x2B then
      match r with
      | d :: _ =>
        if 0x30 ≤ d ∧ d ≤ 0x39 then some (readDigits 0 r) else none
      | [] => none
    else if 0x30 ≤ c ∧ c ≤ 0x39 then some (readDigits 0 l)
    else none

/-- `sscanf(seq, "%c[%d;%d%c", &s, &y, &x, &t)` restricted to the case of
all four conversions succeeding (the C code only accepts return value 4). -/
def sscanf2args (l : List Nat) : Option (Nat × Int × Int × Nat) :=
  match l with
  | sc :: 0x5B :: r2 =>
    match readInt (skipws r2) with
    | none => none
    | some (y, r3) =>
      match r3 with
      | 0x3B :: r4 =>
        match readInt (skipws r4) with
        | none => none
        | some (x, r5) =>
          match r5 with
          | t :: _ => some (sc, y, x, t)
          | [] => none
      | _ => none
  | _ => none

/-- `sscanf(seq, "\x1b[0;%d%c", &pid, &t)` restricted to the case of both
conversions succeeding. -/
def sscanfBreakout (l : List Nat) : Option (Int × Nat) :=
  match l with
  | 0x1B :: 0x5B :: 0x30 :: 0x3B :: r =>
    match readInt (skipws r) with
    | none => none
    | some (pid, r2) =>
      match r2 with
      | t :: _ => some (pid, t)
      | [] => none
  | _ => none

/-- whether a completed sequence is an actual breakout request: it
parses as `"\x1b[0;%d%c"` with terminator `v` (the guard plus the inner
`sscanf` test of the breakout branch). -/
def isBreakout (seq : List Nat) : Bool :=
  match sscanfBreakout seq with
  | some (_, t) => t == BREAKOUTTERMINATOR
  | none => false

/-! ## Cursor Oracle -/

/-- C `readposition`: parse a `"%c[%d;%d%c"` sequence against the expected
`terminator`; on success store the zero-based cursor position and set the
status (`POSITION_UNCERTAIN` exactly when the reported column is the last
one and the terminator is the position-query terminator `R`). -/
def readposition (cfg : Cfg) (terminator : Nat) (seq : List Nat) (s : Term) :
    Term × Bool :=
  match sscanf2args seq with
  | none => (s, false)
  | some (sc, y, x, t) =>
    if sc ≠ ESCAPE ∨ t ≠ terminator then (s, false)
    else if y < 1 ∨ cfg.ws_row < y ∨ x < 1 ∨ cfg.ws_col < x then (s, false)
    else
      ({ s with row := y - 1, col := x - 1,
                positionstatus :=
                  if x = cfg.ws_col ∧ terminator = GETPOSITIONTERMINATOR then
                    POSITION_UNCERTAIN
                  else POSITION_KNOWN },
       true)

/-- whether `readposition` accepts the sequence (its return value); it does
not depend on the state argument. -/
def readpositionAccepts (cfg : Cfg) (terminator : Nat) (seq : List Nat) : Bool :=
  match sscanf2args seq with
  | none => false
  | some (sc, y, x, t) =>
    if sc ≠ ESCAPE ∨ t ≠ terminator then false
    else if y < 1 ∨ cfg.ws_row < y ∨ x < 1 ∨ cfg.ws_col < x then false
    else true

/-- the retry loop of `knowposition`: up to `fuel` drain attempts while the
status is still `POSITION_UNKNOWN`, each invoking `exchange` with a timeout
of 100000 microseconds.  Returns the final state and the list of timeouts
actually used. -/
def knowloop (drain : Nat → Term → Term) : Nat → Term → Term × List Nat
  | 0, s => (s, [])
  | n + 1, s =>
    if s.positionstatus = POSITION_UNKNOWN then
      let s2 := drain 100000 s
      let r := knowloop drain n s2
      (r.1, 100000 :: r.2)
    else (s, [])

/-- C `knowposition(master, alreadyasked)`: if `!alreadyasked` and the
position is already known, return at once with no I/O; otherwise emit
the position query (only when `!alreadyasked`), reset the status to
`POSITION_UNKNOWN` and run at most 4 drain attempts of 100 ms each.
Returns the state, the stdout bytes emitted, and the timeouts of the
drain attempts performed. -/
def knowposition (alreadyasked : Bool) (drain : Nat → Term → Term) (s : Term) :
    Term × List Out × List Nat :=
  if ¬alreadyasked ∧ s.positionstatus = POSITION_KNOWN then (s, [], [])
  else
    let out : List Out := if ¬alreadyasked then ASKPOSITION.map Out.byte else []
    let s2 := { s with positionstatus := POSITION_UNKNOWN }
    let r := knowloop drain 4 s2
    (r.1, out, r.2)

/-! ## Scrollback Store -/

/-- blank (store `0x20`) the ring cells `(origin + i) tmod buffersize` for
`i` in the half-open interval from `lo` to `hi`; the loop body of C
`erase`. -/
def blankCells (cfg : Cfg) (origin : Int) (lo hi : Int) (buf : List Nat) :
    List Nat :=
  (List.range (hi - lo).toNat).foldl
    (fun b k => b.set ((origin + lo + (k : Int)).tmod cfg.buffersize).toNat 0x20)
    buf

/-- C `erase(startrow, startcol, endcol)`: blank `[startcol, endcol)` on
`startrow` and every cell of the following rows through the bottom of the
live screen. -/
def erase (cfg : Cfg) (startrow startcol endcol : Int) (s : Term) : Term :=
  let start := cfg.ws_col * startrow
  let b1 := blankCells cfg s.origin (start + startcol) (start + endcol) s.buffer
  let b2 := blankCells cfg s.origin (start + cfg.ws_col)
    (cfg.ws_row * cfg.ws_col) b1
  { s with buffer := b2 }

/-- C `newrow`: advance the cursor one row; at the bottom of the screen
advance `origin` by one row of cells instead, leave history mode
(`show = origin`) and blank the newly exposed bottom row. -/
def newrow (cfg : Cfg) (s : Term) : Term :=
  if s.row < cfg.ws_row - 1 then { s with row := s.row + 1 }
  else
    let s2 := { s with origin := s.origin + cfg.ws_col }
    let s3 := { s2 with show_ := s2.origin }
    erase cfg (cfg.ws_row - 1) 0 cfg.ws_col s3

/-- the buffer-update block at the end of `shelltoterminal`: `c2` is the
(possibly rewritten) input byte, `w` the decoded cell value.  Note the C
code computes `pos` from the cursor *before* the wrap-around `newrow`. -/
def bufupdate (cfg : Cfg) (c2 w : Nat) (s : Term) : Term :=
  let pos := (s.origin + s.row * cfg.ws_col + s.col).tmod cfg.buffersize
  if (c2 = BS ∨ c2 = DEL) ∧ 0 < s.col then
    { s with col := s.col - 1,
             buffer := s.buffer.set
               ((cfg.buffersize + pos - 1).tmod cfg.buffersize).toNat 0x20 }
  else if c2 = NL ∨ c2 = FF then newrow cfg s
  else if c2 = CR then { s with col := 0 }
  else
    let s2 := if cfg.ws_col ≤ s.col then newrow cfg { s with col := 0 } else s
    { s2 with buffer := s2.buffer.set pos.toNat w, col := s2.col + 1 }

/-! ## Outbound Interpreter (`shelltoterminal`, program → terminal) -/

/-- decimal digits of a positive number, most significant first
(30 is ample fuel for any value occurring here). -/
def decDigitsAux : Nat → Nat → List Nat
  | 0, _ => []
  | fuel + 1, n =>
    if n = 0 then [] else decDigitsAux fuel (n / 10) ++ [0x30 + n % 10]

/-- the bytes `printf`-style `%d` produces for `n`. -/
def decBytes (n : Int) : List Nat :=
  if n < 0 then 0x2D :: decDigitsAux 30 n.natAbs
  else if n = 0 then [0x30]
  else decDigitsAux 30 n.natAbs

/-- the bytes of `sprintf(buf, "\x1b[%d;%dR", r, c)`: the synthesized
position answer written back to the shell. -/
def ansBytes (r c : Int) : List Nat :=
  [0x1B, 0x5B] ++ decBytes r ++ [0x3B] ++ decBytes c ++ [0x52]

/-- the common tail of the completed-sequence dispatch: reset the
accumulator and invalidate the cursor position unless the sequence is a
CSI sequence (second byte `[`) whose final byte is `K` or `m`. -/
def escfinish (c1 : Nat) (s : Term) (out : List Out) : Term × List Out × List Nat :=
  ({ s with escape := -1,
            positionstatus :=
              if s.sequence.getD 1 0 ≠ 0x5B ∨ (c1 ≠ 0x4B ∧ c1 ≠ 0x6D) then
                POSITION_UNKNOWN
              else s.positionstatus },
   out, [])

/-- dispatch of a completed outbound escape sequence (`s.sequence`, whose
final byte after the `ESC 8` rewrite is `c1`): the fixed table of
recognized sequences, then the conservative status reset of
`escfinish`.  `vtrun`, `deletescript` and `kill` in the breakout branch
are external-process effects, represented by `Out.breakout`. -/
def escdispatch (cfg : Cfg) (drain : Nat → Term → Term) (c1 : Nat) (s : Term)
    (out : List Out) : Term × List Out × List Nat :=
  if s.sequence = ERASEDISPLAY then
    escfinish c1 (erase cfg 0 0 cfg.ws_col s) out
  else if s.sequence = ERASECURSORDISPLAY then
    let k := knowposition false drain s
    escfinish c1 (erase cfg k.1.row k.1.col cfg.ws_col k.1) (out ++ k.2.1)
  else if s.sequence = ASKPOSITION then
    let k := knowposition true drain s
    let ans := ansBytes (k.1.row + 1)
      (if k.1.col < cfg.ws_col then k.1.col + 1 else k.1.col)
    ({ k.1 with escape := -1 }, out ++ k.2.1, ans)
  else if s.sequence.getLast? = some BREAKOUTTERMINATOR then
    let out2 :=
      match sscanfBreakout s.sequence with
      | some (pid, t) =>
        if t = BREAKOUTTERMINATOR then out ++ [Out.breakout pid] else out
      | none => out
    escfinish c1 s out2
  else
    let r := readposition cfg MOVECURSORTERMINATOR s.sequence s
    if r.2 then ({ r.1 with escape := -1 }, out, [])
    else escfinish c1 s out

/-- the printable/ordinary-byte path of `shelltoterminal`: query the
cursor position if no UTF-8 sequence is in progress, forward the byte,
run the incremental UTF-8 decoder, and on a complete cell value update
the scrollback buffer. -/
def ordinarychar (cfg : Cfg) (drain : Nat → Term → Term) (c : Nat) (s : Term) :
    Term × List Out × List Nat :=
  let k := if s.utf8len = 0 then knowposition false drain s else (s, [], [])
  let s := k.1
  let out := k.2.1 ++ [Out.byte c]
  if c &&& 0x80 = 0 ∨ cfg.singlechar then
    let s := { s with utf8pos := 0 }
    (bufupdate cfg c c s, out, [])
  else if SEQUENCELEN - 1 ≤ s.utf8pos then
    let s := { s with utf8pos := 0, utf8len := 0 }
    (bufupdate cfg 0x5F 0x5F s, out, [])
  else if c &&& 0xC0 = 0xC0 then
    let s := { s with
      utf8len := if c &&& 0xE0 = 0xC0 then 1
                 else if c &&& 0xF0 = 0xE0 then 2
                 else if c &&& 0xF8 = 0xF0 then 3
                 else 0,
      utf8buf := [c], utf8pos := 1 }
    if s.utf8len ≠ 0 then (s, out, [])
    else (bufupdate cfg c (utf8toucs4 s.utf8buf) s, out, [])
  else if c &&& 0xC0 = 0x80 then
    if s.utf8pos = 0 ∨ s.utf8len = 0 then (s, out, [])
    else
      let s := { s with utf8buf := s.utf8buf ++ [c],
                        utf8pos := s.utf8pos + 1, utf8len := s.utf8len - 1 }
      if s.utf8len ≠ 0 then (s, out, [])
      else (bufupdate cfg c (utf8toucs4 s.utf8buf) s, out, [])
  else (s, out, [])

/-- C `shelltoterminal(master, c)`: process one byte coming from the
shell.  Result: the new state, the items written to the terminal, and
the bytes written back to the shell. -/
def shelltoterminal (cfg : Cfg) (drain : Nat → Term → Term) (c : Nat) (s : Term) :
    Term × List Out × List Nat :=
  -- input character: end scrolling mode
  let out0 : List Out := if s.show_ ≠ s.origin then [Out.redraw] else []
  let s := if s.show_ ≠ s.origin then { s with show_ := s.origin } else s
  -- escape and special characters
  if c ≤ 0x1F ∧ c ≠ ESCAPE ∧ c ≠ BS ∧ c ≠ NL ∧ c ≠ FF ∧ c ≠ CR then
    ({ s with escape := -1,
              positionstatus :=
                if c ≠ 0x0E ∧ c ≠ 0x0F then POSITION_UNKNOWN
                else s.positionstatus,
              utf8pos := 0 },
     out0 ++ [Out.byte c], [])
  else
    let s := if s.escape = -1 ∧ c = ESCAPE then
               { s with escape := 0, sequence := [] }
             else s
    if 0 ≤ s.escape then
      if SEQUENCELEN - 1 ≤ s.escape then
        ({ s with escape := -1, positionstatus := POSITION_UNKNOWN },
         out0 ++ [Out.byte c], [])
      else
        let s := { s with sequence := s.sequence ++ [c], escape := s.escape + 1 }
        let out := out0 ++ [Out.byte c]
        if s.escape - 1 = 1 ∧ (c = 0x5B ∨ c = 0x5D) then (s, out, [])
        else
          let c1 := if s.escape - 1 = 1 ∧ c = 0x38 then 0x41 else c
          if c1 < 0x30 ∨
             (c1 < 0x40 ∧ (s.sequence.getD 1 0 = 0x5B ∨ s.sequence.getD 1 0 = 0x5D)) ∨
             0x7F < c1 then
            (s, out, [])
          else
            let r := escdispatch cfg drain c1 s out
            r
    else
      let r := ordinarychar cfg drain c s
      (r.1, out0 ++ r.2.1, r.2.2)

/-! ## Inbound Interpreter (`terminaltoshell`, terminal → program) -/

/-- the value `pos` computed by the scroll-up branch of
`terminaltoshell`: move `show` up by `lines` rows, clamp at 0, then
clamp to the available history. -/
def scrollup_pos (cfg : Cfg) (s : Term) : Int :=
  let size := cfg.lines * cfg.ws_col
  let pos := s.show_ - size
  let pos := if pos < 0 then 0 else pos
  let all := cfg.ws_row * cfg.ws_col
  if cfg.buffersize - all < s.origin - pos then
    s.origin - ((cfg.buffersize - all).tdiv cfg.ws_col) * cfg.ws_col
  else pos

/-- the scroll-up branch of `terminaltoshell` together with the common
`pos != show` tail: emit save-cursor when leaving live mode, and redraw
only when `show` actually moves. -/
def scrollup_step (cfg : Cfg) (s : Term) : Term × List Out :=
  let pos := scrollup_pos cfg s
  let out0 : List Out :=
    if s.show_ = s.origin ∧ pos ≠ s.show_ then [Out.savecursor] else []
  if pos ≠ s.show_ then ({ s with show_ := pos }, out0 ++ [Out.redraw])
  else (s, out0)

/-- the scroll-down branch of `terminaltoshell` together with the common
`pos != show` tail: move `show` down by `lines` rows, return early
(no redraw) when already live, clamp at `origin`. -/
def scrolldown_step (cfg : Cfg) (s : Term) : Term × List Out :=
  let size := cfg.lines * cfg.ws_col
  let pos := s.show_ + size
  if 0 ≤ pos - s.origin then
    if s.show_ = s.origin then (s, [])
    else
      let pos := s.origin
      if pos ≠ s.show_ then ({ s with show_ := pos }, [Out.redraw])
      else (s, [])
  else
    if pos ≠ s.show_ then ({ s with show_ := pos }, [Out.redraw])
    else (s, [])

/-- C `terminaltoshell(master, c, next)`: process one byte coming from
the real terminal (`next` is true when more bytes follow in the same
read).  Result: the new state, the items written to the terminal, and
the bytes forwarded to the shell. -/
def terminaltoshell (cfg : Cfg) (c : Nat) (next : Bool) (s : Term) :
    Term × List Out × List Nat :=
  let s := if c = ESCAPE ∧ next then
             { s with special := 0, specialsequence := [] }
           else s
  if 0 ≤ s.special then
    let s := { s with specialsequence := s.specialsequence ++ [c],
                      special := s.special + 1 }
    if c = 0x5B ∧ s.special - 1 = 1 then (s, [], [])
    else if c = 0x5B ∧ s.special - 1 = 2 ∧ s.specialsequence.getD 1 0 = 0x5B then
      (s, [], [])
    else if (c < 0x40 ∧ c ≠ 0x2E ∧ c ≠ 0x09) ∨ 0x7F < c then (s, [], [])
    else
      let seq := s.specialsequence
      let s := { s with special := -1 }
      if seq = cfg.scrollup then
        let r := scrollup_step cfg s
        (r.1, r.2, [])
      else if seq = cfg.scrolldown then
        let r := scrolldown_step cfg s
        (r.1, r.2, [])
      else if seq = KEYF2 ∧ s.show_ ≠ s.origin then (s, [Out.save false], [])
      else if seq = KEYF3 ∧ s.show_ ≠ s.origin then (s, [Out.save true], [])
      else
        let r := readposition cfg GETPOSITIONTERMINATOR seq s
        if r.2 then (r.1, [], [])
        else (s, [], seq)
  else
    (s, [], [c])

/-! ## Reachable session states

The operations that touch `origin` and `show` anywhere in the program:
session start, the end-scrolling reset at the top of `shelltoterminal`,
the buffer-update step for a decoded character (which may call
`newrow`), `newrow` itself, `erase`, `readposition`, and the two scroll
branches of `terminaltoshell`.  Any interleaving is allowed, covering in
particular the reentrant drains done by `knowposition`. -/
inductive Reach (cfg : Cfg) : Term → Prop where
  | init : Reach cfg (initTerm cfg)
  | scrollexit {s} : Reach cfg s → Reach cfg { s with show_ := s.origin }
  | printed {s} (c2 w : Nat) : Reach cfg s → Reach cfg (bufupdate cfg c2 w s)
  | rowadvance {s} : Reach cfg s → Reach cfg (newrow cfg s)
  | eraseop {s} (r0 c1 c2 : Int) : Reach cfg s → Reach cfg (erase cfg r0 c1 c2 s)
  | readpos {s} (t : Nat) (seq : List Nat) :
      Reach cfg s → Reach cfg (readposition cfg t seq s).1
  | scrollupk {s} : Reach cfg s → Reach cfg (scrollup_step cfg s).1
  | scrolldownk {s} : Reach cfg s → Reach cfg (scrolldown_step cfg s).1

/-- the strengthened state invariant on the scrollback indices:
both are non-negative multiples of `ws_col`, `show` never ahead of
`origin`, and the distance bounded by the whole rows of history. -/
def Inv (cfg : Cfg) (s : Term) : Prop :=
  0 ≤ s.show_ ∧ s.show_ ≤ s.origin ∧
  cfg.ws_col ∣ s.origin ∧ cfg.ws_col ∣ s.show_ ∧
  s.origin - s.show_ ≤
    ((cfg.buffersize - cfg.ws_row * cfg.ws_col).tdiv cfg.ws_col) * cfg.ws_col

/-- clamping of a candidate `show` value into the interval from
`max 0 (origin − maxHistoryRows*ws_col)` to `origin`, where
`maxHistoryRows = (buffersize − ws_row*ws_col) / ws_col`. -/
def clampShow (cfg : Cfg) (origin v : Int) : Int :=
  max (max 0 (origin -
        ((cfg.buffersize - cfg.ws_row * cfg.ws_col).tdiv cfg.ws_col) * cfg.ws_col))
      (min v origin)

/-- the clamp exactly as the specification words it (`scrollBy`):
the moved `show`, clamped to the interval from
`origin − maxHistoryRows*ws_col` to `origin`, with no clamp at 0. -/
def scrollBySpecShow (cfg : Cfg) (origin shw deltaRows : Int) : Int :=
  max (origin -
        ((cfg.buffersize - cfg.ws_row * cfg.ws_col).tdiv cfg.ws_col) * cfg.ws_col)
      (min (shw + deltaRows * cfg.ws_col) origin)

/-! ## Concrete instances used by witnesses and counterexamples -/

/-- a small concrete session configuration: 2×2 screen, 8-cell buffer,
scroll 1 line per key, default scroll-key strings `ESC[23~` / `ESC[24~`. -/
def cfg0 : Cfg :=
  { ws_row := 2, ws_col := 2, buffersize := 8, lines := 1, singlechar := false,
    scrollup := [0x1B, 0x5B, 0x32, 0x33, 0x7E],
    scrolldown := [0x1B, 0x5B, 0x32, 0x34, 0x7E] }

/-- a trivial drain that leaves the state unchanged. -/
def drain0 : Nat → Term → Term := fun _ s => s

/-- a realistic 24×80 configuration. -/
def cfg24 : Cfg :=
  { ws_row := 24, ws_col := 80, buffersize := 4000, lines := 12,
    singlechar := false,
    scrollup := [0x1B, 0x5B, 0x32, 0x33, 0x7E],
    scrolldown := [0x1B, 0x5B, 0x32, 0x34, 0x7E] }

/-- the bytes of the position reply `ESC[5;10R`. -/
def seqReply : List Nat := [0x1B, 0x5B, 0x35, 0x3B, 0x31, 0x30, 0x52]

/-- a concrete state whose outbound accumulator is full. -/
def sFull : Term :=
  { initTerm cfg0 with escape := 39, sequence := List.replicate 39 0x42 }

/-- a concrete state accumulating the generic CSI sequence `ESC[5`,
with the cursor position known. -/
def sCsi : Term :=
  { initTerm cfg0 with escape := 2, sequence := [0x1B, 0x5B, 0x35],
                       positionstatus := POSITION_KNOWN }

/-- representative scalar values whose UTF-8 encoding is 4 bytes. -/
def reps4 : List Nat := [0x10000, 0x1F600, 0x40000, 0xFFFFF, 0x10FFFF]

/-! ## Arithmetic helper lemmas for the scroll clamp -/

lemma mul_tdiv_bound {cols L m : Int} (hc : 0 < cols) (hL : 0 ≤ L)
    (hdvd : cols ∣ m) (hle : m ≤ L) : m ≤ L.tdiv cols * cols := by
  rw [Int.tdiv_eq_ediv hL hc.le]
  obtain ⟨k, rfl⟩ := hdvd
  have hk : k ≤ L / cols := by
    rw [Int.le_ediv_iff_mul_le hc]
    rw [mul_comm]
    exact hle
  calc cols * k = k * cols := mul_comm cols k
    _ ≤ L / cols * cols := mul_le_mul_of_nonneg_right hk hc.le

lemma tdiv_mul_le_self {cols L : Int} (hc : 0 < cols) (hL : 0 ≤ L) :
    L.tdiv cols * cols ≤ L := by
  rw [Int.tdiv_eq_ediv hL hc.le]
  exact Int.ediv_mul_le L hc.ne'

lemma tdiv_mul_nonneg {cols L : Int} (hc : 0 < cols) (hL : 0 ≤ L) :
    0 ≤ L.tdiv cols * cols := by
  rw [Int.tdiv_eq_ediv hL hc.le]
  exact mul_nonneg (Int.ediv_nonneg hL hc.le) hc.le

/-! ## The scroll clamps -/

/-- the value the scroll-up branch assigns to `show`, in closed form:
the moved `show`, clamped below by the oldest retained row
`max 0 (origin − maxHistoryRows*ws_col)`. -/
lemma scrollup_pos_eq (cfg : Cfg) (s : Term) (hc : 0 < cfg.ws_col)
    (hb : cfg.ws_row * cfg.ws_col ≤ cfg.buffersize)
    (hdo : cfg.ws_col ∣ s.origin) (hdd : cfg.ws_col ∣ (s.origin - s.show_)) :
    scrollup_pos cfg s =
      max (s.show_ - cfg.lines * cfg.ws_col)
        (max 0 (s.origin -
          ((cfg.buffersize - cfg.ws_row * cfg.ws_col).tdiv cfg.ws_col) *
            cfg.ws_col)) := by
  have hL : (0 : Int) ≤ cfg.buffersize - cfg.ws_row * cfg.ws_col := by omega
  have hQle := tdiv_mul_le_self hc hL
  have hQ0 := tdiv_mul_nonneg hc hL
  have hdm : cfg.ws_col ∣ (s.origin - (s.show_ - cfg.lines * cfg.ws_col)) := by
    have h1 : s.origin - (s.show_ - cfg.lines * cfg.ws_col) =
        (s.origin - s.show_) + cfg.lines * cfg.ws_col := by ring
    rw [h1]
    exact dvd_add hdd (dvd_mul_left cfg.ws_col cfg.lines)
  simp only [scrollup_pos]
  split_ifs with h1 h2 h3
  · omega
  · have hoQ := mul_tdiv_bound hc hL hdo (by omega)
    omega
  · omega
  · have hmQ := mul_tdiv_bound hc hL hdm (by omega)
    omega

/-- the scroll-up branch only changes `show`, to `scrollup_pos`. -/
lemma scrollup_step_state (cfg : Cfg) (s : Term) :
    (scrollup_step cfg s).1 =
      (if scrollup_pos cfg s ≠ s.show_ then { s with show_ := scrollup_pos cfg s }
       else s) := by
  unfold scrollup_step
  by_cases h : scrollup_pos cfg s ≠ s.show_ <;> simp [h]

/-- the value the scroll-down branch assigns to `show`, in closed form. -/
lemma scrolldown_show_eq (cfg : Cfg) (s : Term) :
    (scrolldown_step cfg s).1.show_ =
      min (s.show_ + cfg.lines * cfg.ws_col) s.origin := by
  simp only [scrolldown_step]
  split_ifs with h1 h2 h3 h4 <;> simp <;> omega

/-- the scroll-down branch changes nothing but `show`. -/
lemma scrolldown_step_frame (cfg : Cfg) (s : Term) :
    (scrolldown_step cfg s).1 = { s with show_ := (scrolldown_step cfg s).1.show_ } := by
  simp only [scrolldown_step]
  split_ifs <;> simp

/-! ## Preservation of the index invariant -/

lemma inv_init (cfg : Cfg) (hc : 0 < cfg.ws_col)
    (hb : cfg.ws_row * cfg.ws_col ≤ cfg.buffersize) : Inv cfg (initTerm cfg) := by
  have hQ0 := tdiv_mul_nonneg hc (by omega :
    (0 : Int) ≤ cfg.buffersize - cfg.ws_row * cfg.ws_col)
  refine ⟨le_refl _, le_refl _, dvd_zero _, dvd_zero _, ?_⟩
  show (0 : Int) - 0 ≤ _
  omega

lemma inv_scrollexit (cfg : Cfg) (s : Term) (hc : 0 < cfg.ws_col)
    (hb : cfg.ws_row * cfg.ws_col ≤ cfg.buffersize) (h : Inv cfg s) :
    Inv cfg { s with show_ := s.origin } := by
  obtain ⟨h0, h1, h2, h3, h4⟩ := h
  have hQ0 := tdiv_mul_nonneg hc (by omega :
    (0 : Int) ≤ cfg.buffersize - cfg.ws_row * cfg.ws_col)
  refine ⟨?_, le_refl _, h2, h2, ?_⟩
  · show (0 : Int) ≤ s.origin
    omega
  · show s.origin - s.origin ≤ _
    omega

lemma inv_erase (cfg : Cfg) (a b c : Int) (s : Term) (h : Inv cfg s) :
    Inv cfg (erase cfg a b c s) :=
  h

lemma inv_newrow (cfg : Cfg) (s : Term) (hc : 0 < cfg.ws_col)
    (hb : cfg.ws_row * cfg.ws_col ≤ cfg.buffersize) (h : Inv cfg s) :
    Inv cfg (newrow cfg s) := by
  obtain ⟨h0, h1, h2, h3, h4⟩ := h
  have hQ0 := tdiv_mul_nonneg hc (by omega :
    (0 : Int) ≤ cfg.buffersize - cfg.ws_row * cfg.ws_col)
  simp only [newrow]
  split_ifs with h5
  · exact ⟨h0, h1, h2, h3, h4⟩
  · refine inv_erase cfg _ _ _ _ ⟨?_, le_refl _, ?_, ?_, ?_⟩
    · show (0 : Int) ≤ s.origin + cfg.ws_col
      omega
    · show cfg.ws_col ∣ s.origin + cfg.ws_col
      exact dvd_add h2 (dvd_refl _)
    · show cfg.ws_col ∣ s.origin + cfg.ws_col
      exact dvd_add h2 (dvd_refl _)
    · show s.origin + cfg.ws_col - (s.origin + cfg.ws_col) ≤ _
      omega

lemma inv_bufupdate (cfg : Cfg) (c2 w : Nat) (s : Term) (hc : 0 < cfg.ws_col)
    (hb : cfg.ws_row * cfg.ws_col ≤ cfg.buffersize) (h : Inv cfg s) :
    Inv cfg (bufupdate cfg c2 w s) := by
  simp only [bufupdate]
  split_ifs with h1 h2 h3 h4
  · exact h
  · exact inv_newrow cfg s hc hb h
  · exact h
  · exact inv_newrow cfg _ hc hb h
  · exact h

lemma inv_readposition (cfg : Cfg) (t : Nat) (seq : List Nat) (s : Term)
    (h : Inv cfg s) : Inv cfg (readposition cfg t seq s).1 := by
  rcases hss : sscanf2args seq with _ | ⟨sc, y, x, tt⟩
  · simpa [readposition, hss] using h
  · simp only [readposition, hss]
    split_ifs <;> exact h

lemma inv_scrollup (cfg : Cfg) (s : Term) (hc : 0 < cfg.ws_col)
    (hl : 0 ≤ cfg.lines) (hb : cfg.ws_row * cfg.ws_col ≤ cfg.buffersize)
    (h : Inv cfg s) : Inv cfg (scrollup_step cfg s).1 := by
  obtain ⟨h0, h1, h2, h3, h4⟩ := h
  have hL : (0 : Int) ≤ cfg.buffersize - cfg.ws_row * cfg.ws_col := by omega
  have hQ0 := tdiv_mul_nonneg hc hL
  have hpos := scrollup_pos_eq cfg s hc hb h2 (dvd_sub h2 h3)
  have hsize : 0 ≤ cfg.lines * cfg.ws_col := mul_nonneg hl hc.le
  have hdvdpos : cfg.ws_col ∣ scrollup_pos cfg s := by
    rw [hpos]
    rcases max_choice (s.show_ - cfg.lines * cfg.ws_col)
        (max 0 (s.origin -
          ((cfg.buffersize - cfg.ws_row * cfg.ws_col).tdiv cfg.ws_col) *
            cfg.ws_col)) with hm | hm <;> rw [hm]
    · exact dvd_sub h3 (dvd_mul_left cfg.ws_col cfg.lines)
    · rcases max_choice (0 : Int) (s.origin -
          ((cfg.buffersize - cfg.ws_row * cfg.ws_col).tdiv cfg.ws_col) *
            cfg.ws_col) with hm2 | hm2 <;> rw [hm2]
      · exact dvd_zero _
      · exact dvd_sub h2 (dvd_mul_left cfg.ws_col _)
  rw [scrollup_step_state]
  split_ifs with hne
  · refine ⟨?_, ?_, h2, hdvdpos, ?_⟩
    · show (0 : Int) ≤ scrollup_pos cfg s
      omega
    · show scrollup_pos cfg s ≤ s.origin
      omega
    · show s.origin - scrollup_pos cfg s ≤ _
      omega
  · exact ⟨h0, h1, h2, h3, h4⟩

lemma inv_scrolldown (cfg : Cfg) (s : Term) (hc : 0 < cfg.ws_col)
    (hl : 0 ≤ cfg.lines) (hb : cfg.ws_row * cfg.ws_col ≤ cfg.buffersize)
    (h : Inv cfg s) : Inv cfg (scrolldown_step cfg s).1 := by
  obtain ⟨h0, h1, h2, h3, h4⟩ := h
  have hsize : 0 ≤ cfg.lines * cfg.ws_col := mul_nonneg hl hc.le
  have hshow := scrolldown_show_eq cfg s
  have hdvdpos : cfg.ws_col ∣ (scrolldown_step cfg s).1.show_ := by
    rw [hshow]
    rcases min_choice (s.show_ + cfg.lines * cfg.ws_col) s.origin with hm | hm <;>
      rw [hm]
    · exact dvd_add h3 (dvd_mul_left cfg.ws_col cfg.lines)
    · exact h2
  rw [scrolldown_step_frame]
  refine ⟨?_, ?_, h2, hdvdpos, ?_⟩
  · show (0 : Int) ≤ (scrolldown_step cfg s).1.show_
    omega
  · show (scrolldown_step cfg s).1.show_ ≤ s.origin
    omega
  · show s.origin - (scrolldown_step cfg s).1.show_ ≤ _
    omega

lemma reach_inv (cfg : Cfg) (hc : 0 < cfg.ws_col) (hl : 0 ≤ cfg.lines)
    (hb : cfg.ws_row * cfg.ws_col ≤ cfg.buffersize) :
    ∀ s, Reach cfg s → Inv cfg s := by
  intro s h
  induction h with
  | init => exact inv_init cfg hc hb
  | scrollexit _ ih => exact inv_scrollexit cfg _ hc hb ih
  | printed c2 w _ ih => exact inv_bufupdate cfg c2 w _ hc hb ih
  | rowadvance _ ih => exact inv_newrow cfg _ hc hb ih
  | eraseop r0 c1 c2 _ ih => exact inv_erase cfg r0 c1 c2 _ ih
  | readpos t seq _ ih => exact inv_readposition cfg t seq _ ih
  | scrollupk _ ih => exact inv_scrollup cfg _ hc hl hb ih
  | scrolldownk _ ih => exact inv_scrolldown cfg _ hc hl hb ih

/-! ## C1 -/

/-- C1: in every state reachable from session start (`origin = show = 0`)
by printed characters, row advances, erases and scroll key events, the
quantity `origin − show` is a non-negative multiple of `ws_col` and is at
most `buffersize` minus one screenful. -/
theorem c1_origin_show_invariant (cfg : Cfg) (hc : 0 < cfg.ws_col)
    (hl : 0 ≤ cfg.lines) (hb : cfg.ws_row * cfg.ws_col ≤ cfg.buffersize)
    (s : Term) (hs : Reach cfg s) :
    0 ≤ s.origin - s.show_ ∧ cfg.ws_col ∣ (s.origin - s.show_) ∧
    s.origin - s.show_ ≤ cfg.buffersize - cfg.ws_row * cfg.ws_col := by
  obtain ⟨h0, h1, h2, h3, h4⟩ := reach_inv cfg hc hl hb s hs
  have hL : (0 : Int) ≤ cfg.buffersize - cfg.ws_row * cfg.ws_col := by omega
  have hQle := tdiv_mul_le_self hc hL
  exact ⟨by omega, dvd_sub h2 h3, by omega⟩

/-- C1 witness: the invariant evaluated at a concrete reachable state
(a row advance followed by a scroll-up key event). -/
theorem c1_origin_show_invariant_witness :
    0 ≤ (scrollup_step cfg0 (newrow cfg0 (initTerm cfg0))).1.origin -
        (scrollup_step cfg0 (newrow cfg0 (initTerm cfg0))).1.show_ ∧
    cfg0.ws_col ∣
      ((scrollup_step cfg0 (newrow cfg0 (initTerm cfg0))).1.origin -
        (scrollup_step cfg0 (newrow cfg0 (initTerm cfg0))).1.show_) ∧
    (scrollup_step cfg0 (newrow cfg0 (initTerm cfg0))).1.origin -
        (scrollup_step cfg0 (newrow cfg0 (initTerm cfg0))).1.show_ ≤
      cfg0.buffersize - cfg0.ws_row * cfg0.ws_col :=
  c1_origin_show_invariant cfg0 (by decide) (by decide) (by decide) _
    (Reach.scrollupk (Reach.rowadvance Reach.init))

/-! ## C2 -/

/-- C2 counterexample: at session start (`origin = show = 0`) a scroll-up
key leaves `show` at 0, while the clamp interval stated by the
specification, `[origin − maxHistoryRows*cols, origin]`, would yield the
negative index −2 (with a 2×2 screen, an 8-cell buffer and `lines = 1`):
the code additionally clamps at 0. -/
theorem c2_scrollby_counterexample :
    (scrollup_step cfg0 (initTerm cfg0)).1.show_ = 0 ∧
    scrollBySpecShow cfg0 (initTerm cfg0).origin (initTerm cfg0).show_
      (-cfg0.lines) = -2 ∧
    (scrollup_step cfg0 (initTerm cfg0)).1.show_ ≠
      scrollBySpecShow cfg0 (initTerm cfg0).origin (initTerm cfg0).show_
        (-cfg0.lines) := by
  decide

/-- C2 (amended): for every state satisfying the session invariant, a
scroll-up or scroll-down key event moves `show` by `lines*ws_col` (down
adds, up subtracts) clamped to the interval
`[max 0 (origin − maxHistoryRows*ws_col), origin]`, where
`maxHistoryRows = (buffersize − ws_row*ws_col) / ws_col`; the extra
clamp at 0 (absent from the original claim) is the start of the
session's history. -/
theorem c2_scrollby_clamped (cfg : Cfg) (s : Term) (hc : 0 < cfg.ws_col)
    (hl : 0 ≤ cfg.lines) (hb : cfg.ws_row * cfg.ws_col ≤ cfg.buffersize)
    (hinv : Inv cfg s) :
    (scrollup_step cfg s).1.show_ =
      clampShow cfg s.origin (s.show_ - cfg.lines * cfg.ws_col) ∧
    (scrolldown_step cfg s).1.show_ =
      clampShow cfg s.origin (s.show_ + cfg.lines * cfg.ws_col) := by
  obtain ⟨h0, h1, h2, h3, h4⟩ := hinv
  have hL : (0 : Int) ≤ cfg.buffersize - cfg.ws_row * cfg.ws_col := by omega
  have hQ0 := tdiv_mul_nonneg hc hL
  have hsize : 0 ≤ cfg.lines * cfg.ws_col := mul_nonneg hl hc.le
  have hup := scrollup_pos_eq cfg s hc hb h2 (dvd_sub h2 h3)
  have hdn := scrolldown_show_eq cfg s
  constructor
  · rw [scrollup_step_state]
    unfold clampShow
    split_ifs with hne
    · show scrollup_pos cfg s = _
      omega
    · omega
  · rw [hdn]
    unfold clampShow
    omega

/-- C2 witness: the amended clamp evaluated in a concrete scrolled state
(2×2 screen, 8-cell buffer, `origin = 4`, `show = 2`). -/
theorem c2_scrollby_clamped_witness :
    (scrollup_step cfg0 { initTerm cfg0 with origin := 4, show_ := 2 }).1.show_ =
      clampShow cfg0 4 (2 - cfg0.lines * cfg0.ws_col) ∧
    (scrolldown_step cfg0 { initTerm cfg0 with origin := 4, show_ := 2 }).1.show_ =
      clampShow cfg0 4 (2 + cfg0.lines * cfg0.ws_col) :=
  c2_scrollby_clamped cfg0 { initTerm cfg0 with origin := 4, show_ := 2 }
    (by decide) (by decide) (by decide)
    ⟨by decide, by decide, by decide, by decide, by decide⟩

/-! ## C3 -/

/-- C3: scrolling is idempotent at both clamps: a scroll-up event in a
state already showing the oldest retained row leaves the state unchanged
and produces no output (no redraw), and a scroll-down event with
`show = origin` likewise leaves the state unchanged with no output. -/
theorem c3_scroll_idempotent_at_clamps (cfg : Cfg) (s : Term)
    (hc : 0 < cfg.ws_col) (hl : 0 ≤ cfg.lines)
    (hb : cfg.ws_row * cfg.ws_col ≤ cfg.buffersize) (hinv : Inv cfg s) :
    (s.show_ = max 0 (s.origin -
        ((cfg.buffersize - cfg.ws_row * cfg.ws_col).tdiv cfg.ws_col) *
          cfg.ws_col) →
      scrollup_step cfg s = (s, [])) ∧
    (s.show_ = s.origin → scrolldown_step cfg s = (s, [])) := by
  obtain ⟨h0, h1, h2, h3, h4⟩ := hinv
  have hsize : 0 ≤ cfg.lines * cfg.ws_col := mul_nonneg hl hc.le
  constructor
  · intro hold
    have hup := scrollup_pos_eq cfg s hc hb h2 (dvd_sub h2 h3)
    have hpe : scrollup_pos cfg s = s.show_ := by omega
    unfold scrollup_step
    rw [hpe]
    simp
  · intro hlive
    unfold scrolldown_step
    rw [if_pos (by omega : (0 : Int) ≤ s.show_ + cfg.lines * cfg.ws_col - s.origin)]
    rw [if_pos hlive]

/-- C3 witness: both idempotence statements evaluated in a concrete
state sitting exactly at the lower clamp and at the live position
(`origin = show` at the oldest retained row after wrap-around). -/
theorem c3_scroll_idempotent_witness :
    scrollup_step cfg0 (initTerm cfg0) = (initTerm cfg0, []) ∧
    scrolldown_step cfg0 (initTerm cfg0) = (initTerm cfg0, []) :=
  ⟨(c3_scroll_idempotent_at_clamps cfg0 (initTerm cfg0)
      (by decide) (by decide) (by decide)
      ⟨by decide, by decide, by decide, by decide, by decide⟩).1 (by decide),
   (c3_scroll_idempotent_at_clamps cfg0 (initTerm cfg0)
      (by decide) (by decide) (by decide)
      ⟨by decide, by decide, by decide, by decide, by decide⟩).2 (by decide)⟩

/-! ## C4 -/

/-- C4: for every position-reply sequence that parses as
`"%c[%d;%d%c"` with starter `ESC` and the expected terminator, the
reported pair is accepted iff `1 ≤ y ≤ ws_row` and `1 ≤ x ≤ ws_col`;
on acceptance the tracked cursor becomes `(y−1, x−1)` and the status
becomes `POSITION_UNCERTAIN` exactly when the terminator is the
position-query terminator `R` and `x = ws_col`, else `POSITION_KNOWN`. -/
theorem c4_readposition_accepts_iff (cfg : Cfg) (s : Term) (term : Nat)
    (seq : List Nat) (sc : Nat) (y x : Int) (t : Nat)
    (hp : sscanf2args seq = some (sc, y, x, t))
    (hsc : sc = ESCAPE) (ht : t = term) :
    ((readposition cfg term seq s).2 = true ↔
      1 ≤ y ∧ y ≤ cfg.ws_row ∧ 1 ≤ x ∧ x ≤ cfg.ws_col) ∧
    ((readposition cfg term seq s).2 = true →
      (readposition cfg term seq s).1.row = y - 1 ∧
      (readposition cfg term seq s).1.col = x - 1 ∧
      (readposition cfg term seq s).1.positionstatus =
        (if x = cfg.ws_col ∧ term = GETPOSITIONTERMINATOR then
          POSITION_UNCERTAIN else POSITION_KNOWN)) := by
  subst hsc ht
  simp only [readposition, hp]
  rw [if_neg (by simp)]
  by_cases hr : y < 1 ∨ cfg.ws_row < y ∨ x < 1 ∨ cfg.ws_col < x
  · rw [if_pos hr]
    constructor
    · constructor
      · intro hfalse
        simp at hfalse
      · intro hok
        omega
    · intro hfalse
      simp at hfalse
  · rw [if_neg hr]
    refine ⟨⟨fun _ => by omega, fun _ => rfl⟩, fun _ => ⟨rfl, rfl, rfl⟩⟩

/-- C4 witness: the reply `ESC[5;10R` on a 24×80 screen is accepted and
yields row 4, column 9, status `POSITION_KNOWN`. -/
theorem c4_readposition_witness :
    ((readposition cfg24 GETPOSITIONTERMINATOR seqReply (initTerm cfg24)).2 = true ↔
      1 ≤ (5 : Int) ∧ (5 : Int) ≤ cfg24.ws_row ∧ 1 ≤ (10 : Int) ∧
        (10 : Int) ≤ cfg24.ws_col) ∧
    ((readposition cfg24 GETPOSITIONTERMINATOR seqReply (initTerm cfg24)).2 = true →
      (readposition cfg24 GETPOSITIONTERMINATOR seqReply (initTerm cfg24)).1.row =
        5 - 1 ∧
      (readposition cfg24 GETPOSITIONTERMINATOR seqReply (initTerm cfg24)).1.col =
        10 - 1 ∧
      (readposition cfg24 GETPOSITIONTERMINATOR seqReply (initTerm cfg24)).1.positionstatus =
        (if (10 : Int) = cfg24.ws_col ∧
            GETPOSITIONTERMINATOR = GETPOSITIONTERMINATOR then
          POSITION_UNCERTAIN else POSITION_KNOWN)) :=
  c4_readposition_accepts_iff cfg24 (initTerm cfg24) GETPOSITIONTERMINATOR
    seqReply ESCAPE 5 10 GETPOSITIONTERMINATOR (by decide) rfl rfl

/-! ## C8 -/

/-- the retry loop performs at most `fuel` attempts, each with the
100 ms timeout. -/
lemma knowloop_bound (drain : Nat → Term → Term) :
    ∀ (fuel : Nat) (s : Term),
      (knowloop drain fuel s).2.length ≤ fuel ∧
      ∀ t ∈ (knowloop drain fuel s).2, t = 100000 := by
  intro fuel
  induction fuel with
  | zero => intro s; exact ⟨le_refl 0, by simp [knowloop]⟩
  | succ n ih =>
    intro s
    simp only [knowloop]
    split_ifs with h
    · have := ih (drain 100000 s)
      constructor
      · simpa using Nat.succ_le_succ this.1
      · intro t ht
        simp at ht
        rcases ht with ht | ht
        · exact ht
        · exact this.2 t ht
    · exact ⟨by simp, by simp⟩

/-- C8: `knowposition(alreadyasked)` returns immediately with no I/O
(no query emitted, no drain attempts, state untouched) when
`alreadyasked` is false and the status is already `POSITION_KNOWN`;
in every case it performs at most 4 drain attempts, each with the
100 ms (100000 µs) timeout, and terminates afterwards — it is a total
function and never waits beyond its attempt budget. -/
theorem c8_knowposition_bounded (ask : Bool) (drain : Nat → Term → Term)
    (s : Term) :
    (ask = false → s.positionstatus = POSITION_KNOWN →
      knowposition ask drain s = (s, [], [])) ∧
    (knowposition ask drain s).2.2.length ≤ 4 ∧
    (∀ t ∈ (knowposition ask drain s).2.2, t = 100000) := by
  refine ⟨?_, ?_, ?_⟩
  · intro ha hk
    subst ha
    simp [knowposition, hk]
  · simp only [knowposition]
    split_ifs with h h2
    · simp
    · simpa using (knowloop_bound drain 4 _).1
    · simpa using (knowloop_bound drain 4 _).1
  · simp only [knowposition]
    split_ifs with h h2
    · simp
    · simpa using (knowloop_bound drain 4 _).2
    · simpa using (knowloop_bound drain 4 _).2

/-- C8 witness: with the status already known and `alreadyasked = false`
the oracle is the identity with empty outputs, and with an unknown
status its drain list has at most 4 entries, all of 100000 µs. -/
theorem c8_knowposition_witness :
    knowposition false drain0 { initTerm cfg0 with positionstatus := POSITION_KNOWN } =
      ({ initTerm cfg0 with positionstatus := POSITION_KNOWN }, [], []) ∧
    (knowposition false drain0 (initTerm cfg0)).2.2.length ≤ 4 :=
  ⟨(c8_knowposition_bounded false drain0
      { initTerm cfg0 with positionstatus := POSITION_KNOWN }).1 rfl rfl,
   (c8_knowposition_bounded false drain0 (initTerm cfg0)).2.1⟩

/-! ## C5 -/

/-- C5 counterexample: the shift-out byte 0x0E is a control byte below
0x20 other than ESC/backspace/newline/CR/FF, yet processing it leaves a
`POSITION_KNOWN` cursor status untouched instead of setting it to
`POSITION_UNKNOWN` (the code exempts 0x0E and 0x0F). -/
theorem c5_control_byte_counterexample :
    (shelltoterminal cfg0 drain0 0x0E
        { initTerm cfg0 with positionstatus := POSITION_KNOWN }).1.positionstatus =
      POSITION_KNOWN ∧
    POSITION_KNOWN ≠ POSITION_UNKNOWN := by
  decide

/-- C5 (amended): for every byte `c < 0x20` other than
ESC/backspace/newline/CR/FF, the outbound interpreter forwards `c`
unchanged to the terminal, writes nothing to the shell, resets the
escape accumulator and the in-progress UTF-8 position, and sets the
cursor status to `POSITION_UNKNOWN` — except for the shift-out /
shift-in bytes 0x0E and 0x0F, which leave the status unchanged. -/
theorem c5_control_byte_effects (cfg : Cfg) (drain : Nat → Term → Term)
    (c : Nat) (s : Term) (h1 : c ≤ 0x1F) (h2 : c ≠ ESCAPE) (h3 : c ≠ BS)
    (h4 : c ≠ NL) (h5 : c ≠ FF) (h6 : c ≠ CR) :
    (shelltoterminal cfg drain c s).2.1 =
      (if s.show_ ≠ s.origin then [Out.redraw] else []) ++ [Out.byte c] ∧
    (shelltoterminal cfg drain c s).2.2 = [] ∧
    (shelltoterminal cfg drain c s).1.escape = -1 ∧
    (shelltoterminal cfg drain c s).1.utf8pos = 0 ∧
    (shelltoterminal cfg drain c s).1.positionstatus =
      (if c ≠ 0x0E ∧ c ≠ 0x0F then POSITION_UNKNOWN else s.positionstatus) := by
  by_cases hshow : s.show_ = s.origin <;>
    simp [shelltoterminal, h1, h2, h3, h4, h5, h6, hshow]

/-- C5 witness: the amended effects at the concrete byte 0x01 in a
concrete live-mode state. -/
theorem c5_control_byte_witness :
    (shelltoterminal cfg0 drain0 0x01 (initTerm cfg0)).2.1 =
      (if (initTerm cfg0).show_ ≠ (initTerm cfg0).origin then [Out.redraw]
       else []) ++ [Out.byte 0x01] ∧
    (shelltoterminal cfg0 drain0 0x01 (initTerm cfg0)).2.2 = [] ∧
    (shelltoterminal cfg0 drain0 0x01 (initTerm cfg0)).1.escape = -1 ∧
    (shelltoterminal cfg0 drain0 0x01 (initTerm cfg0)).1.utf8pos = 0 ∧
    (shelltoterminal cfg0 drain0 0x01 (initTerm cfg0)).1.positionstatus =
      (if (0x01 : Nat) ≠ 0x0E ∧ (0x01 : Nat) ≠ 0x0F then POSITION_UNKNOWN
       else (initTerm cfg0).positionstatus) :=
  c5_control_byte_effects cfg0 drain0 0x01 (initTerm cfg0)
    (by decide) (by decide) (by decide) (by decide) (by decide) (by decide)

/-! ## C7 -/

/-- C7 counterexample: when the accumulator bound is reached (here
`escape = 39` with 39 bytes stored), the overflowing byte IS forwarded
to the terminal — the stdout output of the overflow step is `[byte c]`,
not empty, and indeed every byte of the sequence was forwarded on
arrival by the `putc` at the top of the escape branch — contradicting
"abandoned without being forwarded to the terminal". -/
theorem c7_overflow_counterexample :
    (shelltoterminal cfg0 drain0 0x31
        { initTerm cfg0 with escape := 39,
                             sequence := List.replicate 39 0x41 }).2.1 =
      [Out.byte 0x31] ∧
    ([Out.byte 0x31] : List Out) ≠ [] := by
  decide

/-- C7 (amended): when an in-progress escape sequence reaches the
accumulator bound, the sequence is abandoned — the accumulator is
reset (`escape = −1`, so the next byte is classified afresh) and the
stored bytes are not extended — with no output beyond the forwarding
of the current byte itself (each sequence byte, including this one,
having already been forwarded to the terminal on arrival); the cursor
status is forced to `POSITION_UNKNOWN`; nothing is written to the
shell and processing continues (never fatal). -/
theorem c7_overflow_recovery (cfg : Cfg) (drain : Nat → Term → Term)
    (c : Nat) (s : Term) (hof : SEQUENCELEN - 1 ≤ s.escape)
    (hctl : ¬(c ≤ 0x1F ∧ c ≠ ESCAPE ∧ c ≠ BS ∧ c ≠ NL ∧ c ≠ FF ∧ c ≠ CR)) :
    (shelltoterminal cfg drain c s).1.escape = -1 ∧
    (shelltoterminal cfg drain c s).1.positionstatus = POSITION_UNKNOWN ∧
    (shelltoterminal cfg drain c s).1.sequence = s.sequence ∧
    (shelltoterminal cfg drain c s).2.1 =
      (if s.show_ ≠ s.origin then [Out.redraw] else []) ++ [Out.byte c] ∧
    (shelltoterminal cfg drain c s).2.2 = [] := by
  have hseq : (SEQUENCELEN : Int) = 40 := rfl
  have hne : ¬(s.escape = -1 ∧ c = ESCAPE) := by
    intro hcon
    omega
  have h0 : (0 : Int) ≤ s.escape := by omega
  by_cases hshow : s.show_ = s.origin <;>
    simp [shelltoterminal, hctl, hne, h0, hof, hshow]

/-- C7 witness: the amended effects at a concrete full accumulator. -/
theorem c7_overflow_recovery_witness :
    (shelltoterminal cfg0 drain0 0x32 sFull).1.escape = -1 ∧
    (shelltoterminal cfg0 drain0 0x32 sFull).1.positionstatus =
      POSITION_UNKNOWN ∧
    (shelltoterminal cfg0 drain0 0x32 sFull).1.sequence = sFull.sequence ∧
    (shelltoterminal cfg0 drain0 0x32 sFull).2.1 =
      (if sFull.show_ ≠ sFull.origin then [Out.redraw] else []) ++
        [Out.byte 0x32] ∧
    (shelltoterminal cfg0 drain0 0x32 sFull).2.2 = [] :=
  c7_overflow_recovery cfg0 drain0 0x32 sFull (by decide) (by decide)

/-! ## C10 -/

/-- C10: a backspace (0x08) or delete (0x7F) byte processed by the
outbound interpreter while the tracked column is 0 does not decrement
the column; it falls through to the ordinary-character branch, which
stores the control code itself into the scrollback cell at the tracked
cursor position and increments the column to 1.  (Hypotheses: no escape
sequence or UTF-8 sequence in progress, position already known so the
oracle performs no I/O, positive screen width.) -/
theorem c10_backspace_at_col0 (cfg : Cfg) (drain : Nat → Term → Term)
    (c : Nat) (s : Term) (hc2 : c = BS ∨ c = DEL) (hesc : s.escape = -1)
    (hcol : s.col = 0) (hlen : s.utf8len = 0)
    (hknown : s.positionstatus = POSITION_KNOWN) (hcols : 0 < cfg.ws_col) :
    (shelltoterminal cfg drain c s).1.col = 1 ∧
    (shelltoterminal cfg drain c s).1.row = s.row ∧
    (shelltoterminal cfg drain c s).1.buffer =
      s.buffer.set ((s.origin + s.row * cfg.ws_col).tmod cfg.buffersize).toNat c := by
  have hcc : ¬(cfg.ws_col ≤ (0 : Int)) := by omega
  have h8 : (8 : Nat) &&& 128 = 0 := by decide
  have h127 : (127 : Nat) &&& 128 = 0 := by decide
  rcases hc2 with rfl | rfl <;>
    by_cases hshow : s.show_ = s.origin <;>
      simp [shelltoterminal, ordinarychar, knowposition, bufupdate, hesc, hcol,
        hlen, hknown, hcc, hshow, h8, h127, BS, DEL, NL, FF, CR, ESCAPE,
        POSITION_KNOWN, POSITION_UNKNOWN]

/-- C10 witness: a backspace at column 0 in a concrete state stores
byte 8 at the cursor cell and moves the column to 1. -/
theorem c10_backspace_witness :
    (shelltoterminal cfg0 drain0 BS
        { initTerm cfg0 with positionstatus := POSITION_KNOWN }).1.col = 1 ∧
    (shelltoterminal cfg0 drain0 BS
        { initTerm cfg0 with positionstatus := POSITION_KNOWN }).1.row =
      ({ initTerm cfg0 with positionstatus := POSITION_KNOWN } : Term).row ∧
    (shelltoterminal cfg0 drain0 BS
        { initTerm cfg0 with positionstatus := POSITION_KNOWN }).1.buffer =
      ({ initTerm cfg0 with positionstatus := POSITION_KNOWN } : Term).buffer.set
        ((({ initTerm cfg0 with positionstatus := POSITION_KNOWN } : Term).origin +
            ({ initTerm cfg0 with positionstatus := POSITION_KNOWN } : Term).row *
              cfg0.ws_col).tmod cfg0.buffersize).toNat BS :=
  c10_backspace_at_col0 cfg0 drain0 BS
    { initTerm cfg0 with positionstatus := POSITION_KNOWN }
    (Or.inl rfl) rfl rfl rfl rfl (by decide)

/-! ## C6 -/

/-- acceptance of `readposition` does not depend on the state. -/
lemma readposition_snd (cfg : Cfg) (t : Nat) (seq : List Nat) (s : Term) :
    (readposition cfg t seq s).2 = readpositionAccepts cfg t seq := by
  rcases hss : sscanf2args seq with _ | ⟨sc, y, x, tt⟩ <;>
    simp only [readposition, readpositionAccepts, hss] <;>
    split_ifs <;> rfl

/-- status and accumulator after dispatching a completed sequence that
matches none of the recognized table entries. -/
lemma escdispatch_status (cfg : Cfg) (drain : Nat → Term → Term) (c1 : Nat)
    (u : Term) (out : List Out)
    (hn1 : u.sequence ≠ ERASEDISPLAY) (hn2 : u.sequence ≠ ERASECURSORDISPLAY)
    (hn3 : u.sequence ≠ ASKPOSITION)
    (hn5 : readpositionAccepts cfg MOVECURSORTERMINATOR u.sequence = false) :
    (escdispatch cfg drain c1 u out).1.positionstatus =
      (if u.sequence.getD 1 0 = 0x5B ∧ (c1 = 0x4B ∨ c1 = 0x6D) then
        u.positionstatus else POSITION_UNKNOWN) ∧
    (escdispatch cfg drain c1 u out).1.escape = -1 := by
  simp only [escdispatch]
  rw [if_neg hn1, if_neg hn2, if_neg hn3]
  by_cases hbv : u.sequence.getLast? = some BREAKOUTTERMINATOR
  · rw [if_pos hbv]
    simp only [escfinish]
    constructor
    · split_ifs <;> tauto
    · trivial
  · rw [if_neg hbv]
    rw [readposition_snd, hn5]
    rw [if_neg (by simp : ¬(false = true))]
    simp only [escfinish]
    constructor
    · split_ifs <;> tauto
    · trivial

/-- under the classification hypotheses, processing byte `c` with an
in-progress accumulator completes the sequence and hands it to
`escdispatch`. -/
lemma shelltoterminal_dispatch (cfg : Cfg) (drain : Nat → Term → Term)
    (c : Nat) (s : Term)
    (hctl : ¬(c ≤ 0x1F ∧ c ≠ ESCAPE ∧ c ≠ BS ∧ c ≠ NL ∧ c ≠ FF ∧ c ≠ CR))
    (hesc0 : 0 ≤ s.escape) (hnof : ¬(SEQUENCELEN - 1 ≤ s.escape))
    (hnb : ¬(s.escape = 1 ∧ (c = 0x5B ∨ c = 0x5D)))
    (hcomp : ¬((if s.escape = 1 ∧ c = 0x38 then 0x41 else c) < 0x30 ∨
      ((if s.escape = 1 ∧ c = 0x38 then 0x41 else c) < 0x40 ∧
        ((s.sequence ++ [c]).getD 1 0 = 0x5B ∨
          (s.sequence ++ [c]).getD 1 0 = 0x5D)) ∨
      0x7F < (if s.escape = 1 ∧ c = 0x38 then 0x41 else c))) :
    shelltoterminal cfg drain c s =
      escdispatch cfg drain (if s.escape = 1 ∧ c = 0x38 then 0x41 else c)
        { (if s.show_ ≠ s.origin then { s with show_ := s.origin } else s) with
          sequence := s.sequence ++ [c], escape := s.escape + 1 }
        ((if s.show_ ≠ s.origin then [Out.redraw] else []) ++ [Out.byte c]) := by
  have hne : ¬(s.escape = -1 ∧ c = ESCAPE) := by
    intro h
    omega
  have he1 : s.escape + 1 - 1 = s.escape := by omega
  by_cases hshow : s.show_ ≠ s.origin <;>
    · simp only [shelltoterminal, hshow, ne_eq, not_false_iff,
        not_not, ite_true, ite_false, if_true, if_false]
      try dsimp only
      rw [if_neg hne]
      try dsimp only
      rw [if_pos hesc0, if_neg hnof]
      try dsimp only
      rw [he1]
      rw [if_neg hnb, if_neg hcomp]
      exact if_neg hctl

/-- C6: a completed outbound escape sequence that is none of the
recognized forms (erase-display `ESC[2J`, erase-to-end `ESC[J`,
position-query `ESC[6n`, breakout, move-cursor-absolute) leaves the
cursor status unchanged when it is a CSI sequence (second byte `[`)
whose final byte (after the `ESC 8` rewrite) is `K` or `m`, and forces
the status to `POSITION_UNKNOWN` otherwise; the accumulator is reset
either way.  `c` is the completing byte, `c1` its rewritten value. -/
theorem c6_generic_sequence_status (cfg : Cfg) (drain : Nat → Term → Term)
    (c c1 : Nat) (s : Term)
    (hesc0 : 0 ≤ s.escape) (hesc39 : s.escape < SEQUENCELEN - 1)
    (hnb : ¬(s.escape = 1 ∧ (c = 0x5B ∨ c = 0x5D)))
    (hc1 : c1 = if s.escape = 1 ∧ c = 0x38 then 0x41 else c)
    (hcomp : ¬(c1 < 0x30 ∨
      (c1 < 0x40 ∧ ((s.sequence ++ [c]).getD 1 0 = 0x5B ∨
        (s.sequence ++ [c]).getD 1 0 = 0x5D)) ∨ 0x7F < c1))
    (hn1 : s.sequence ++ [c] ≠ ERASEDISPLAY)
    (hn2 : s.sequence ++ [c] ≠ ERASECURSORDISPLAY)
    (hn3 : s.sequence ++ [c] ≠ ASKPOSITION)
    (hn4 : isBreakout (s.sequence ++ [c]) = false)
    (hn5 : readpositionAccepts cfg MOVECURSORTERMINATOR (s.sequence ++ [c]) = false) :
    (shelltoterminal cfg drain c s).1.positionstatus =
      (if (s.sequence ++ [c]).getD 1 0 = 0x5B ∧ (c1 = 0x4B ∨ c1 = 0x6D) then
        s.positionstatus else POSITION_UNKNOWN) ∧
    (shelltoterminal cfg drain c s).1.escape = -1 := by
  subst hc1
  have hcge : 0x30 ≤ c := by
    by_cases h8 : s.escape = 1 ∧ c = 0x38
    · rcases h8 with ⟨-, h8b⟩
      omega
    · rw [if_neg h8] at hcomp
      omega
  have hctl : ¬(c ≤ 0x1F ∧ c ≠ ESCAPE ∧ c ≠ BS ∧ c ≠ NL ∧ c ≠ FF ∧ c ≠ CR) := by
    intro h
    omega
  have hnof : ¬(SEQUENCELEN - 1 ≤ s.escape) := by omega
  rw [shelltoterminal_dispatch cfg drain c s hctl hesc0 hnof hnb hcomp]
  have hd := escdispatch_status cfg drain
    (if s.escape = 1 ∧ c = 0x38 then 0x41 else c)
    { (if s.show_ ≠ s.origin then { s with show_ := s.origin } else s) with
      sequence := s.sequence ++ [c], escape := s.escape + 1 }
    ((if s.show_ ≠ s.origin then [Out.redraw] else []) ++ [Out.byte c])
    hn1 hn2 hn3 hn5
  rcases hd with ⟨hd1, hd2⟩
  refine ⟨?_, hd2⟩
  rw [hd1]
  by_cases hshow : s.show_ ≠ s.origin <;> simp [hshow]

/-- C6 witness: completing the generic attribute sequence `ESC[5m` in a
concrete state leaves the known cursor status unchanged and resets the
accumulator. -/
theorem c6_generic_sequence_witness :
    (shelltoterminal cfg0 drain0 0x6D sCsi).1.positionstatus =
      (if (sCsi.sequence ++ [0x6D]).getD 1 0 = 0x5B ∧
          ((0x6D : Nat) = 0x4B ∨ (0x6D : Nat) = 0x6D) then
        sCsi.positionstatus else POSITION_UNKNOWN) ∧
    (shelltoterminal cfg0 drain0 0x6D sCsi).1.escape = -1 :=
  c6_generic_sequence_status cfg0 drain0 0x6D 0x6D sCsi (by decide) (by decide)
    (by decide) (by decide) (by decide) (by decide) (by decide) (by decide)
    (by decide) (by decide)
/-! ## C9: bitwise helper lemmas -/

lemma nat_and_disjoint (n : Nat) {h m : Nat} (hh : h < 2 ^ n)
    (hm : (2 ^ n - 1) &&& m = 0) : h &&& m = 0 := by
  conv_lhs => rw [← Nat.and_pow_two_sub_one_of_lt_two_pow hh]
  rw [Nat.and_assoc, hm, Nat.and_zero]

lemma add_and_distrib {k a h m : Nat} (hh : h < 2 ^ k) :
    (2 ^ k * a + h) &&& m = ((2 ^ k * a) &&& m) ||| (h &&& m) := by
  rw [Nat.mul_add_lt_is_or hh a, Nat.and_distrib_right]

lemma add_small_and (k : Nat) {K h m : Nat} (hh : h < 2 ^ k)
    (hK : K % 2 ^ k = 0) (h1 : (2 ^ k - 1) &&& m = 0) :
    (K + h) &&& m = K &&& m := by
  obtain ⟨a, rfl⟩ := Nat.dvd_of_mod_eq_zero hK
  rw [add_and_distrib hh, nat_and_disjoint k hh h1, Nat.or_zero]

lemma add_small_extract (n : Nat) {K h : Nat} (hh : h < 2 ^ n)
    (hK : K % 2 ^ n = 0) : (K + h) &&& (2 ^ n - 1) = h := by
  obtain ⟨a, rfl⟩ := Nat.dvd_of_mod_eq_zero hK
  rw [Nat.and_pow_two_sub_one_eq_mod, Nat.mul_add_mod, Nat.mod_eq_of_lt hh]

lemma or_small (k : Nat) {x m : Nat} (hx : x % 2 ^ k = 0) (hm : m < 2 ^ k) :
    x ||| m = x + m := by
  obtain ⟨a, rfl⟩ := Nat.dvd_of_mod_eq_zero hx
  exact (Nat.mul_add_lt_is_or hm a).symm

/-! ## C9 -/

/-- C9: codec round-trip: for every scalar value in the Basic
Multilingual Plane (`c < 0x10000`, covering all BMP Unicode scalar
values) and for the representative 4-byte scalar values of `reps4`,
decoding the encoder's byte string yields `c` again. -/
theorem c9_utf8_roundtrip :
    (∀ c : Nat, c < 0x10000 → utf8toucs4 (ucs4toutf8 c) = c) ∧
    (∀ c ∈ reps4, utf8toucs4 (ucs4toutf8 c) = c) := by
  constructor
  · intro c hc
    by_cases h1 : c < 0x80
    · simp only [ucs4toutf8, if_pos h1]
      simp only [utf8toucs4, List.getD_cons_zero, List.getD_cons_succ,
        List.getD_nil]
      rw [if_pos (nat_and_disjoint 7 (by omega) (by decide))]
    · by_cases h2 : c < 0x800
      · -- two-byte encoding
        simp only [ucs4toutf8, if_neg h1, if_pos h2]
        have hsh : c >>> 6 = c / 64 := by
          rw [Nat.shiftRight_eq_div_pow]
          try norm_num
        have he0 : c >>> 6 &&& 0x1F = c / 64 := by
          rw [hsh, (by decide : (0x1F : Nat) = 2 ^ 5 - 1),
            Nat.and_pow_two_sub_one_eq_mod]
          exact Nat.mod_eq_of_lt (by omega)
        have he1 : c &&& 0x3F = c % 64 := by
          rw [(by decide : (0x3F : Nat) = 2 ^ 6 - 1),
            Nat.and_pow_two_sub_one_eq_mod]
          try norm_num
        have hb0 : (0xC0 : Nat) ||| (c >>> 6 &&& 0x1F) = 192 + c / 64 := by
          rw [he0, or_small 6 (by omega) (by omega)]
        have hb1 : (0x80 : Nat) ||| (c &&& 0x3F) = 128 + c % 64 := by
          rw [he1, or_small 6 (by omega) (by omega)]
        rw [hb0, hb1]
        simp only [utf8toucs4, List.getD_cons_zero, List.getD_cons_succ,
          List.getD_nil]
        have hc1 : (192 + c / 64) &&& 128 = 128 := by
          rw [add_small_and 5 (by omega) (by omega) (by decide)]
          try decide
        have hc2a : (192 + c / 64) &&& 224 = 192 := by
          rw [add_small_and 5 (by omega) (by omega) (by decide)]
          try decide
        have hc2b : (128 + c % 64) &&& 192 = 128 := by
          rw [add_small_and 6 (by omega) (by omega) (by decide)]
          try decide
        rw [hc1, hc2a, hc2b]
        rw [if_neg (by decide), if_pos (by decide :
          (192 : Nat) = 192 ∧ (128 : Nat) = 128)]
        have hv0 : (192 + c / 64) &&& 0x1F = c / 64 := by
          rw [(by decide : (0x1F : Nat) = 2 ^ 5 - 1)]
          exact add_small_extract 5 (by omega) (by omega)
        have hv1 : (128 + c % 64) &&& 0x3F = c % 64 := by
          rw [(by decide : (0x3F : Nat) = 2 ^ 6 - 1)]
          exact add_small_extract 6 (by omega) (by omega)
        rw [hv0, hv1, Nat.shiftLeft_eq, or_small 6 (by omega) (by omega)]
        omega
      · -- three-byte encoding
        simp only [ucs4toutf8, if_neg h1, if_neg h2, if_pos hc]
        have hsh12 : c >>> 12 = c / 4096 := by
          rw [Nat.shiftRight_eq_div_pow]
          try norm_num
        have hsh6 : c >>> 6 = c / 64 := by
          rw [Nat.shiftRight_eq_div_pow]
          try norm_num
        have he0 : c >>> 12 &&& 0x0F = c / 4096 := by
          rw [hsh12, (by decide : (0x0F : Nat) = 2 ^ 4 - 1),
            Nat.and_pow_two_sub_one_eq_mod]
          exact Nat.mod_eq_of_lt (by omega)
        have he1 : c >>> 6 &&& 0x3F = c / 64 % 64 := by
          rw [hsh6, (by decide : (0x3F : Nat) = 2 ^ 6 - 1),
            Nat.and_pow_two_sub_one_eq_mod]
          try norm_num
        have he2 : c &&& 0x3F = c % 64 := by
          rw [(by decide : (0x3F : Nat) = 2 ^ 6 - 1),
            Nat.and_pow_two_sub_one_eq_mod]
          try norm_num
        have hb0 : (0xE0 : Nat) ||| (c >>> 12 &&& 0x0F) = 224 + c / 4096 := by
          rw [he0, or_small 5 (by omega) (by omega)]
        have hb1 : (0x80 : Nat) ||| (c >>> 6 &&& 0x3F) = 128 + c / 64 % 64 := by
          rw [he1, or_small 6 (by omega) (by omega)]
        have hb2 : (0x80 : Nat) ||| (c &&& 0x3F) = 128 + c % 64 := by
          rw [he2, or_small 6 (by omega) (by omega)]
        rw [hb0, hb1, hb2]
        simp only [utf8toucs4, List.getD_cons_zero, List.getD_cons_succ,
          List.getD_nil]
        have hc1 : (224 + c / 4096) &&& 128 = 128 := by
          rw [add_small_and 5 (by omega) (by omega) (by decide)]
          try decide
        have hc2 : (224 + c / 4096) &&& 224 = 224 := by
          rw [add_small_and 5 (by omega) (by omega) (by decide)]
          try decide
        have hc3 : (224 + c / 4096) &&& 240 = 224 := by
          rw [add_small_and 4 (by omega) (by omega) (by decide)]
          try decide
        have hcm : (128 + c / 64 % 64) &&& 192 = 128 := by
          rw [add_small_and 6 (by omega) (by omega) (by decide)]
          try decide
        have hcl : (128 + c % 64) &&& 192 = 128 := by
          rw [add_small_and 6 (by omega) (by omega) (by decide)]
          try decide
        rw [hc1, hc2, hc3, hcm, hcl]
        rw [if_neg (by decide)]
        rw [if_neg (fun hcon => absurd hcon.1 (by decide))]
        rw [if_pos (by decide :
          (224 : Nat) = 224 ∧ (128 : Nat) = 128 ∧ (128 : Nat) = 128)]
        have hv0 : (224 + c / 4096) &&& 0x0F = c / 4096 := by
          rw [(by decide : (0x0F : Nat) = 2 ^ 4 - 1)]
          exact add_small_extract 4 (by omega) (by omega)
        have hv1 : (128 + c / 64 % 64) &&& 0x3F = c / 64 % 64 := by
          rw [(by decide : (0x3F : Nat) = 2 ^ 6 - 1)]
          exact add_small_extract 6 (by omega) (by omega)
        have hv2 : (128 + c % 64) &&& 0x3F = c % 64 := by
          rw [(by decide : (0x3F : Nat) = 2 ^ 6 - 1)]
          exact add_small_extract 6 (by omega) (by omega)
        rw [hv0, hv1, hv2, Nat.shiftLeft_eq, Nat.shiftLeft_eq]
        have hor1 : c / 4096 * 2 ^ 12 ||| c / 64 % 64 * 2 ^ 6 =
            c / 4096 * 2 ^ 12 + c / 64 % 64 * 2 ^ 6 :=
          or_small 12 (by omega) (by omega)
        rw [hor1, or_small 6 (by omega) (by omega)]
        omega
  · decide

/-- C9 witness: the round-trip at the concrete BMP scalar 0x41 and the
4-byte scalar 0x1F600. -/
theorem c9_utf8_roundtrip_witness :
    utf8toucs4 (ucs4toutf8 0x41) = 0x41 ∧
    utf8toucs4 (ucs4toutf8 0x1F600) = 0x1F600 :=
  ⟨c9_utf8_roundtrip.1 0x41 (by decide),
   c9_utf8_roundtrip.2 0x1F600 (by decide)⟩

end Scrollback
